import Mathlib

/-!
Verification of the `control-sim-rs` repository: a shallow embedding of its
PID control loop state machine, plant dynamics, dual-rate physics stepper and
simulation harness, over exact rational arithmetic (`ℚ` standing in for the
source's `f64`; the source's dimensioned quantities are consumed as plain
scalars, matching the spec's treatment of the quantity model as external).
-/

namespace ControlSim

/-- `LoopState` from `src/src/lib.rs` (the source spells it `Unitialized`). -/
inductive LoopState
  | Unitialized
  | Zeroing
  | Running
deriving DecidableEq

/-- Forward progress index of a loop state along
`Unitialized → Zeroing → Running`. -/
def LoopState.idx : LoopState → Nat
  | .Unitialized => 0
  | .Zeroing => 1
  | .Running => 2

/-- `ElevatorPIDLoop` struct: controller state machine with setpoint,
last error, zero offset and creeping zero goal. -/
structure ElevatorPIDLoop where
  state : LoopState
  sp : ℚ
  last_err : ℚ
  zero_offset : ℚ
  zero_goal : ℚ
deriving DecidableEq

/-- `ElevatorPIDLoop::ZEROING_SPEED = 0.01` (m/s). -/
def ZEROING_SPEED : ℚ := 1 / 100

/-- `ElevatorPIDLoop::MAX_HEIGHT = 2.5` (m). -/
def MAX_HEIGHT : ℚ := 5 / 2

/-- `ElevatorPIDLoop::MIN_HEIGHT = -0.02` (m). -/
def MIN_HEIGHT : ℚ := -(1 / 50)

/-- `ElevatorPIDLoop::DT = 1/200` (s). -/
def DT : ℚ := 1 / 200

/-- `ElevatorPIDLoop::KP = 20.0` (V/m). -/
def KP : ℚ := 20

/-- `ElevatorPIDLoop::KD = 5.0` (V·s/m). -/
def KD : ℚ := 5

/-- `ElevatorPIDLoop::new()`. -/
def ElevatorPIDLoop.new : ElevatorPIDLoop :=
  { state := .Unitialized, sp := 0, last_err := 0, zero_offset := 0, zero_goal := 0 }

/-- `util::clamp` (release semantics): `if a < lower { lower } else if
a > upper { upper } else { a }`. -/
def clamp (a lower upper : ℚ) : ℚ :=
  if a < lower then lower
  else if a > upper then upper
  else a

/-- `util::clamp` with its `debug_assert!(lower < upper)` modelled: in a
development build the precondition violation panics, rendered as `none`. -/
def clampChecked (a lower upper : ℚ) : Option ℚ :=
  if lower < upper then
    some (if a < lower then lower else if a > upper then upper else a)
  else none

/-- The common tail of `ElevatorPIDLoop::iterate` after the `match` on the
state has produced `filtered_goal`: compute the error, the clamped PD output,
and store `last_err`. -/
def pidTail (c : ElevatorPIDLoop) (filtered_goal encoder : ℚ) : ElevatorPIDLoop × ℚ :=
  let err := filtered_goal - (encoder - c.zero_offset)
  let v := clamp (err * KP + ((err - c.last_err) / DT) * KD) (-12) 12
  ({ c with last_err := err }, v)

/-- `ElevatorPIDLoop::iterate(encoder, limit)`: the state-machine dispatch.
`Unitialized` records `zero_goal = encoder` and re-dispatches as `Zeroing`;
`Zeroing` with the limit switch active captures `zero_offset = encoder`,
resets `last_err = 0` and re-dispatches as `Running`; otherwise `Zeroing`
creeps `zero_goal` down by `ZEROING_SPEED * DT` and `Running` clamps the
setpoint to the travel bounds; both fall through to the common PD tail.
Returns the updated controller together with the output voltage. -/
def iterate (c : ElevatorPIDLoop) (encoder : ℚ) (limit : Bool) : ElevatorPIDLoop × ℚ :=
  match hs : c.state with
  | .Unitialized =>
      iterate { c with zero_goal := encoder, state := .Zeroing } encoder limit
  | .Zeroing =>
      if limit then
        iterate { c with state := .Running, zero_offset := encoder, last_err := 0 } encoder limit
      else
        let zg := c.zero_goal - ZEROING_SPEED * DT
        pidTail { c with zero_goal := zg } zg encoder
  | .Running =>
      pidTail c (clamp c.sp MIN_HEIGHT MAX_HEIGHT) encoder
termination_by 2 - c.state.idx
decreasing_by
  · simp [hs, LoopState.idx]
  · simp [hs, LoopState.idx]

/-- `ElevatorPIDLoop::set_goal`. -/
def set_goal (c : ElevatorPIDLoop) (sp : ℚ) : ElevatorPIDLoop :=
  { c with sp := sp }

/-- `ElevatorPIDLoop::get_goal`. -/
def get_goal (c : ElevatorPIDLoop) : ℚ :=
  c.sp

/-- Number of internal re-dispatches (recursive `self.iterate(...)` calls)
performed by one outer call of `ElevatorPIDLoop::iterate`. -/
def dispatchCount (c : ElevatorPIDLoop) (encoder : ℚ) (limit : Bool) : Nat :=
  match hs : c.state with
  | .Unitialized =>
      dispatchCount { c with zero_goal := encoder, state := .Zeroing } encoder limit + 1
  | .Zeroing =>
      if limit then
        dispatchCount { c with state := .Running, zero_offset := encoder, last_err := 0 }
          encoder limit + 1
      else 0
  | .Running => 0
termination_by 2 - c.state.idx
decreasing_by
  · simp [hs, LoopState.idx]
  · simp [hs, LoopState.idx]

/-- A sequence of `iterate` calls, keeping the evolving controller. -/
def runIterates (c : ElevatorPIDLoop) (inputs : List (ℚ × Bool)) : ElevatorPIDLoop :=
  inputs.foldl (fun a p => (iterate a p.1 p.2).1) c

/-- `ElevatorShim::assert` as written in `src/src/lib.rs` lines 314–320:
`assert!(state.pos <= MAX_HEIGHT); assert!(state.pos <= MIN_HEIGHT);` — note
that BOTH bounds are compared with `<=` in that file (the finiteness checks
are debug-only and vacuous over `ℚ`). Returns whether the asserts pass. -/
def elevatorShimAssertSrc (pos : ℚ) : Bool :=
  decide (pos ≤ MAX_HEIGHT) && decide (pos ≤ MIN_HEIGHT)

/-- `ElevatorShim::assert` as written in
`src/examples/elevator_pid/src/lib.rs` lines 183–189:
`assert!(state.pos <= MAX_HEIGHT); assert!(state.pos >= MIN_HEIGHT);`. -/
def elevatorShimAssertExample (pos : ℚ) : Bool :=
  decide (pos ≤ MAX_HEIGHT) && decide (pos ≥ MIN_HEIGHT)

/-- `HarnessAble::SIMUL_DT` for the elevator: `1/200/1000` (s). -/
def SIMUL_DT : ℚ := 1 / 200 / 1000

/-- `HarnessAble::CONTROL_DT` for the elevator: `1/200` (s). -/
def CONTROL_DT : ℚ := 1 / 200

/-- `ElevatorSim::acc(volt, vel)`: the gear-motor plant dynamics
`(G*Kt*(Kv*volt*r - G*vel)) / (m*Kv*R*r*r)` with the source's constants
`m = 5`, `r = 0.1524`, `R = 12/133`, `G = 20`, `Kt = 24/133`,
`Kv = 558.15629415/12`. -/
def acc (volt vel : ℚ) : ℚ :=
  let m : ℚ := 5
  let r : ℚ := 1524 / 10000
  let R : ℚ := 12 / 133
  let G : ℚ := 20
  let Kt : ℚ := 24 / 133
  let Kv : ℚ := (55815629415 / 100000000) / 12
  (G * Kt * (Kv * volt * r - G * vel)) / (m * Kv * R * r * r)

/-- `ElevatorPhysicsState`: position and velocity of the plant. -/
structure ElevatorPhysicsState where
  pos : ℚ
  vel : ℚ
deriving DecidableEq

/-- The explicit-Euler sub-step loop of `HarnessAble::sim_time` for the
elevator: `while elapsed < dur { vel += acc(r, vel)*SIMUL_DT;
pos += vel*SIMUL_DT; elapsed += SIMUL_DT; }`. -/
def simTimeAux (r dur elapsed pos vel : ℚ) : ℚ × ℚ :=
  if hlt : elapsed < dur then
    simTimeAux r dur (elapsed + SIMUL_DT) (pos + (vel + acc r vel * SIMUL_DT) * SIMUL_DT)
      (vel + acc r vel * SIMUL_DT)
  else (pos, vel)
termination_by (⌈(dur - elapsed) / SIMUL_DT⌉).toNat
decreasing_by
  have hne : SIMUL_DT ≠ 0 := by norm_num [SIMUL_DT]
  have h1 : (dur - (elapsed + SIMUL_DT)) / SIMUL_DT = (dur - elapsed) / SIMUL_DT - 1 := by
    field_simp
    ring
  have h2 : 0 < ⌈(dur - elapsed) / SIMUL_DT⌉ :=
    Int.ceil_pos.mpr (div_pos (by linarith) (by norm_num [SIMUL_DT]))
  have h3 : ⌈(dur - (elapsed + SIMUL_DT)) / SIMUL_DT⌉ = ⌈(dur - elapsed) / SIMUL_DT⌉ - 1 := by
    rw [h1, Int.ceil_sub_one]
  omega

/-- `HarnessAble::sim_time(s, r, dur)` for the elevator: advance the plant
state under the zero-order-held control response `r`. -/
def sim_time (s : ElevatorPhysicsState) (r : ℚ) (dur : ℚ) : ElevatorPhysicsState :=
  { pos := (simTimeAux r dur 0 s.pos s.vel).1, vel := (simTimeAux r dur 0 s.pos s.vel).2 }

/-- The `HarnessAble` trait data consumed by `SimulationHarness`: the physics
step function and the control period (with the positivity that any timestep
has, needed here to express the while loop as a total function). -/
structure SysOps (State Response : Type) where
  CONTROL_DT : ℚ
  dt_pos : 0 < CONTROL_DT
  sim_time : State → Response → ℚ → State

/-- The `StateShim` trait data: `update` feeds the plant state to the
controller and returns the control response (mutating the shim), `assert`
checks the safety invariants (`false` models the aborting `assert!`), and
`log_dat` builds a log record. `log_dat` is modelled from the spec: the shim
protocol of the spec lists it and the example implements it, but the harness
body that calls it is not under `src/`. -/
structure ShimOps (Shim State Response Log : Type) where
  update : Shim → State → Shim × Response
  assert : Shim → State → Bool
  log_dat : Shim → State → Response → ℚ → Log

/-- `SimulationHarness`: shim, current plant state, elapsed simulated time
and the log decimation factor. -/
structure SimulationHarness (Shim State : Type) where
  shim : Shim
  state : State
  time : ℚ
  log_every : Nat

/-- The outcome of `run_time`: final harness, number of control steps
performed, and the accumulated log records. -/
structure RunResult (Shim State Log : Type) where
  harness : SimulationHarness Shim State
  steps : Nat
  logs : List Log

/-- The body of `SimulationHarness::run_time`:
`while elapsed < time { let response = shim.update(state);
state = sim_time(state, response, CONTROL_DT); shim.assert(state);
elapsed += CONTROL_DT; self.time += CONTROL_DT; }`, returning `none` when an
`assert!` fires (aborting the run). The step counter and log decimation are
modelled from the spec (§4.5 step 4): each step increments the counter and
every `log_every` steps a record built from current state, response and
elapsed time is appended and the counter reset; that logging variant of the
harness is not under `src/`. -/
def runTimeAux {Shim State Response Log : Type} (sys : SysOps State Response)
    (ops : ShimOps Shim State Response Log) (dur : ℚ) (elapsed : ℚ)
    (h : SimulationHarness Shim State) (steps counter : Nat) (logs : List Log) :
    Option (RunResult Shim State Log) :=
  if hlt : elapsed < dur then
    if ops.assert (ops.update h.shim h.state).1
        (sys.sim_time h.state (ops.update h.shim h.state).2 sys.CONTROL_DT) then
      if counter + 1 = h.log_every then
        runTimeAux sys ops dur (elapsed + sys.CONTROL_DT)
          { shim := (ops.update h.shim h.state).1,
            state := sys.sim_time h.state (ops.update h.shim h.state).2 sys.CONTROL_DT,
            time := h.time + sys.CONTROL_DT, log_every := h.log_every }
          (steps + 1) 0
          (logs ++ [ops.log_dat (ops.update h.shim h.state).1
            (sys.sim_time h.state (ops.update h.shim h.state).2 sys.CONTROL_DT)
            (ops.update h.shim h.state).2 (elapsed + sys.CONTROL_DT)])
      else
        runTimeAux sys ops dur (elapsed + sys.CONTROL_DT)
          { shim := (ops.update h.shim h.state).1,
            state := sys.sim_time h.state (ops.update h.shim h.state).2 sys.CONTROL_DT,
            time := h.time + sys.CONTROL_DT, log_every := h.log_every }
          (steps + 1) (counter + 1) logs
    else none
  else some ⟨h, steps, logs⟩
termination_by (⌈(dur - elapsed) / sys.CONTROL_DT⌉).toNat
decreasing_by
  all_goals
    have hne : sys.CONTROL_DT ≠ 0 := ne_of_gt sys.dt_pos
    have h1 : (dur - (elapsed + sys.CONTROL_DT)) / sys.CONTROL_DT
        = (dur - elapsed) / sys.CONTROL_DT - 1 := by
      field_simp
      ring
    have h2 : 0 < ⌈(dur - elapsed) / sys.CONTROL_DT⌉ :=
      Int.ceil_pos.mpr (div_pos (by linarith) sys.dt_pos)
    have h3 : ⌈(dur - (elapsed + sys.CONTROL_DT)) / sys.CONTROL_DT⌉
        = ⌈(dur - elapsed) / sys.CONTROL_DT⌉ - 1 := by
      rw [h1, Int.ceil_sub_one]
    omega

/-- `SimulationHarness::run_time(time)`: run the loop from `elapsed = 0` with
an empty log buffer and zero step counter. -/
def run_time {Shim State Response Log : Type} (sys : SysOps State Response)
    (ops : ShimOps Shim State Response Log) (h : SimulationHarness Shim State) (dur : ℚ) :
    Option (RunResult Shim State Log) :=
  runTimeAux sys ops dur 0 h 0 0 []

/-- One control step of the harness seen as a pure transformation of the
shim/plant pair: controller update followed by the physics advance. -/
def controlStep {Shim State Response Log : Type} (sys : SysOps State Response)
    (ops : ShimOps Shim State Response Log) (p : Shim × State) : Shim × State :=
  ((ops.update p.1 p.2).1, sys.sim_time p.2 (ops.update p.1 p.2).2 sys.CONTROL_DT)

/-- Trivial system used to witness the harness theorems on concrete runs. -/
def witSys : SysOps ℚ ℚ :=
  { CONTROL_DT := 1, dt_pos := one_pos, sim_time := fun s _ _ => s }

/-- Trivial shim used to witness the harness theorems on concrete runs. -/
def witOps : ShimOps Unit ℚ ℚ ℚ :=
  { update := fun sh _ => (sh, 0), assert := fun _ _ => true, log_dat := fun _ _ _ t => t }

/-- Concrete harness used to witness the harness theorems. -/
def witHarness : SimulationHarness Unit ℚ :=
  { shim := (), state := 0, time := 0, log_every := 1 }

section IterateLemmas

lemma iterate_eq_running (c : ElevatorPIDLoop) (h : c.state = .Running) (e : ℚ) (l : Bool) :
    iterate c e l = pidTail c (clamp c.sp MIN_HEIGHT MAX_HEIGHT) e := by
  unfold iterate
  split <;> simp_all

lemma iterate_eq_zeroing_nolimit (c : ElevatorPIDLoop) (h : c.state = .Zeroing) (e : ℚ) :
    iterate c e false = pidTail { c with zero_goal := c.zero_goal - ZEROING_SPEED * DT }
      (c.zero_goal - ZEROING_SPEED * DT) e := by
  unfold iterate
  split <;> simp_all

lemma iterate_eq_zeroing_limit (c : ElevatorPIDLoop) (h : c.state = .Zeroing) (e : ℚ) :
    iterate c e true
      = iterate { c with state := .Running, zero_offset := e, last_err := 0 } e true := by
  conv_lhs => unfold iterate
  split <;> simp_all

lemma iterate_eq_unitialized (c : ElevatorPIDLoop) (h : c.state = .Unitialized) (e : ℚ)
    (l : Bool) :
    iterate c e l = iterate { c with zero_goal := e, state := .Zeroing } e l := by
  conv_lhs => unfold iterate
  split <;> simp_all

lemma clamp_mem (a lo hi : ℚ) (h : lo ≤ hi) : lo ≤ clamp a lo hi ∧ clamp a lo hi ≤ hi := by
  unfold clamp
  split_ifs with h1 h2 <;> constructor <;> linarith

lemma pidTail_snd_mem (c : ElevatorPIDLoop) (fg e : ℚ) :
    -12 ≤ (pidTail c fg e).2 ∧ (pidTail c fg e).2 ≤ 12 := by
  exact clamp_mem _ _ _ (by norm_num)

lemma pidTail_fst_state (c : ElevatorPIDLoop) (fg e : ℚ) :
    (pidTail c fg e).1.state = c.state := rfl

lemma iterate_bounded_of_zeroing (c : ElevatorPIDLoop) (h : c.state = .Zeroing) (e : ℚ)
    (l : Bool) : -12 ≤ (iterate c e l).2 ∧ (iterate c e l).2 ≤ 12 := by
  cases l
  · rw [iterate_eq_zeroing_nolimit c h e]
    exact pidTail_snd_mem _ _ _
  · rw [iterate_eq_zeroing_limit c h e, iterate_eq_running _ rfl]
    exact pidTail_snd_mem _ _ _

lemma iterate_state_mono (c : ElevatorPIDLoop) (e : ℚ) (l : Bool) :
    c.state.idx ≤ ((iterate c e l).1).state.idx := by
  rcases hst : c.state with _ | _ | _
  · simp [hst, LoopState.idx]
  · cases l
    · rw [iterate_eq_zeroing_nolimit c hst e, pidTail_fst_state]
      simp [hst, LoopState.idx]
    · rw [iterate_eq_zeroing_limit c hst e, iterate_eq_running _ rfl, pidTail_fst_state]
      simp [hst, LoopState.idx]
  · rw [iterate_eq_running c hst, pidTail_fst_state]
    simp [hst, LoopState.idx]

lemma dispatchCount_eq_running (c : ElevatorPIDLoop) (h : c.state = .Running) (e : ℚ)
    (l : Bool) : dispatchCount c e l = 0 := by
  unfold dispatchCount
  split <;> simp_all

lemma dispatchCount_eq_zeroing_nolimit (c : ElevatorPIDLoop) (h : c.state = .Zeroing) (e : ℚ) :
    dispatchCount c e false = 0 := by
  unfold dispatchCount
  split <;> simp_all

lemma dispatchCount_eq_zeroing_limit (c : ElevatorPIDLoop) (h : c.state = .Zeroing) (e : ℚ) :
    dispatchCount c e true
      = dispatchCount { c with state := .Running, zero_offset := e, last_err := 0 } e true
        + 1 := by
  conv_lhs => unfold dispatchCount
  split <;> simp_all

lemma dispatchCount_eq_unitialized (c : ElevatorPIDLoop) (h : c.state = .Unitialized) (e : ℚ)
    (l : Bool) :
    dispatchCount c e l = dispatchCount { c with zero_goal := e, state := .Zeroing } e l + 1 := by
  conv_lhs => unfold dispatchCount
  split <;> simp_all

end IterateLemmas

lemma ceil_steps_succ (dt dur elapsed : ℚ) (hdt : 0 < dt) (hlt : elapsed < dur) :
    (⌈(dur - elapsed) / dt⌉).toNat = (⌈(dur - (elapsed + dt)) / dt⌉).toNat + 1 := by
  have hne : dt ≠ 0 := ne_of_gt hdt
  have h1 : (dur - (elapsed + dt)) / dt = (dur - elapsed) / dt - 1 := by
    field_simp
    ring
  have h2 : 0 < ⌈(dur - elapsed) / dt⌉ := Int.ceil_pos.mpr (div_pos (by linarith) hdt)
  rw [h1, Int.ceil_sub_one]
  omega

lemma ceil_steps_zero (dt dur elapsed : ℚ) (hdt : 0 < dt) (hge : ¬ elapsed < dur) :
    (⌈(dur - elapsed) / dt⌉).toNat = 0 := by
  have h0 : (dur - elapsed) / dt ≤ 0 :=
    div_nonpos_iff.mpr (Or.inr ⟨by linarith, hdt.le⟩)
  have h1 : ⌈(dur - elapsed) / dt⌉ ≤ 0 := Int.ceil_le.mpr (by exact_mod_cast h0)
  omega

lemma acc_zero_zero : acc 0 0 = 0 := by
  norm_num [acc]

lemma simTimeAux_zero_vel (dur elapsed pos vel : ℚ) (hv : vel = 0) :
    simTimeAux 0 dur elapsed pos vel = (pos, vel) := by
  revert hv
  induction elapsed, pos, vel using simTimeAux.induct 0 dur with
  | case1 elapsed pos vel hlt ih =>
      intro hv
      subst hv
      have ha : acc 0 0 = 0 := acc_zero_zero
      unfold simTimeAux
      rw [dif_pos hlt, ih (by rw [ha]; ring)]
      rw [ha]
      norm_num
  | case2 elapsed pos vel hlt =>
      intro hv
      unfold simTimeAux
      rw [dif_neg hlt]

lemma sim_time_zero_vel (s : ElevatorPhysicsState) (dur : ℚ) (h : s.vel = 0) :
    sim_time s 0 dur = s := by
  rcases s with ⟨p, v⟩
  simp only at h
  subst h
  unfold sim_time
  rw [simTimeAux_zero_vel dur 0 p 0 rfl]

section HarnessLemmas

variable {Shim State Response Log : Type}

lemma runTimeAux_stop (sys : SysOps State Response) (ops : ShimOps Shim State Response Log)
    (dur elapsed : ℚ) (h : SimulationHarness Shim State) (steps counter : Nat)
    (logs : List Log) (hge : ¬ elapsed < dur) :
    runTimeAux sys ops dur elapsed h steps counter logs = some ⟨h, steps, logs⟩ := by
  unfold runTimeAux
  rw [dif_neg hge]

lemma runTimeAux_step_abort (sys : SysOps State Response) (ops : ShimOps Shim State Response Log)
    (dur elapsed : ℚ) (h : SimulationHarness Shim State) (steps counter : Nat)
    (logs : List Log) (hlt : elapsed < dur)
    (hassert : ops.assert (ops.update h.shim h.state).1
      (sys.sim_time h.state (ops.update h.shim h.state).2 sys.CONTROL_DT) = false) :
    runTimeAux sys ops dur elapsed h steps counter logs = none := by
  unfold runTimeAux
  rw [dif_pos hlt, hassert]
  rfl

lemma runTimeAux_step_log (sys : SysOps State Response) (ops : ShimOps Shim State Response Log)
    (dur elapsed : ℚ) (h : SimulationHarness Shim State) (steps counter : Nat)
    (logs : List Log) (hlt : elapsed < dur)
    (hassert : ops.assert (ops.update h.shim h.state).1
      (sys.sim_time h.state (ops.update h.shim h.state).2 sys.CONTROL_DT) = true)
    (heq : counter + 1 = h.log_every) :
    runTimeAux sys ops dur elapsed h steps counter logs
      = runTimeAux sys ops dur (elapsed + sys.CONTROL_DT)
          { shim := (ops.update h.shim h.state).1,
            state := sys.sim_time h.state (ops.update h.shim h.state).2 sys.CONTROL_DT,
            time := h.time + sys.CONTROL_DT, log_every := h.log_every }
          (steps + 1) 0
          (logs ++ [ops.log_dat (ops.update h.shim h.state).1
            (sys.sim_time h.state (ops.update h.shim h.state).2 sys.CONTROL_DT)
            (ops.update h.shim h.state).2 (elapsed + sys.CONTROL_DT)]) := by
  conv_lhs => unfold runTimeAux
  rw [dif_pos hlt, hassert, if_pos rfl, if_pos heq]

lemma runTimeAux_step_nolog (sys : SysOps State Response) (ops : ShimOps Shim State Response Log)
    (dur elapsed : ℚ) (h : SimulationHarness Shim State) (steps counter : Nat)
    (logs : List Log) (hlt : elapsed < dur)
    (hassert : ops.assert (ops.update h.shim h.state).1
      (sys.sim_time h.state (ops.update h.shim h.state).2 sys.CONTROL_DT) = true)
    (hne : ¬ counter + 1 = h.log_every) :
    runTimeAux sys ops dur elapsed h steps counter logs
      = runTimeAux sys ops dur (elapsed + sys.CONTROL_DT)
          { shim := (ops.update h.shim h.state).1,
            state := sys.sim_time h.state (ops.update h.shim h.state).2 sys.CONTROL_DT,
            time := h.time + sys.CONTROL_DT, log_every := h.log_every }
          (steps + 1) (counter + 1) logs := by
  conv_lhs => unfold runTimeAux
  rw [dif_pos hlt, hassert, if_pos rfl, if_neg hne]

lemma runTimeAux_count (sys : SysOps State Response)
    (ops : ShimOps Shim State Response Log) (dur : ℚ) :
    ∀ (elapsed : ℚ) (h : SimulationHarness Shim State) (steps counter : Nat)
      (logs : List Log) (res : RunResult Shim State Log),
      counter < h.log_every →
      runTimeAux sys ops dur elapsed h steps counter logs = some res →
      res.steps = steps + (⌈(dur - elapsed) / sys.CONTROL_DT⌉).toNat ∧
      res.logs.length
        = logs.length + (counter + (⌈(dur - elapsed) / sys.CONTROL_DT⌉).toNat) / h.log_every ∧
      (res.harness.shim, res.harness.state)
        = (controlStep sys ops)^[(⌈(dur - elapsed) / sys.CONTROL_DT⌉).toNat]
            (h.shim, h.state) := by
  intro elapsed h steps counter logs
  induction elapsed, h, steps, counter, logs using runTimeAux.induct sys ops dur with
  | case1 elapsed h steps counter logs hlt hassert heq ih =>
      intro res hcnt hres
      have hsucc := ceil_steps_succ sys.CONTROL_DT dur elapsed sys.dt_pos hlt
      rw [runTimeAux_step_log sys ops dur elapsed h steps counter logs hlt hassert heq] at hres
      have hle_pos : 0 < h.log_every := by omega
      have ih2 := ih res (by simpa using hle_pos) hres
      obtain ⟨a1, a2, a3⟩ := ih2
      refine ⟨by rw [hsucc]; omega, ?_, ?_⟩
      · rw [hsucc]
        have e1 : counter + ((⌈(dur - (elapsed + sys.CONTROL_DT)) / sys.CONTROL_DT⌉).toNat + 1)
            = (⌈(dur - (elapsed + sys.CONTROL_DT)) / sys.CONTROL_DT⌉).toNat + h.log_every := by
          omega
        rw [e1, Nat.add_div_right _ hle_pos]
        simp only [List.length_append, List.length_cons, List.length_nil, zero_add] at a2
        omega
      · rw [hsucc, Function.iterate_succ_apply]
        exact a3
  | case2 elapsed h steps counter logs hlt hassert hne ih =>
      intro res hcnt hres
      have hsucc := ceil_steps_succ sys.CONTROL_DT dur elapsed sys.dt_pos hlt
      rw [runTimeAux_step_nolog sys ops dur elapsed h steps counter logs hlt hassert hne] at hres
      have hcnt2 : counter + 1 < h.log_every := by omega
      have ih2 := ih res (by simpa using hcnt2) hres
      obtain ⟨a1, a2, a3⟩ := ih2
      refine ⟨by rw [hsucc]; omega, ?_, ?_⟩
      · rw [hsucc]
        have e1 : counter + ((⌈(dur - (elapsed + sys.CONTROL_DT)) / sys.CONTROL_DT⌉).toNat + 1)
            = (counter + 1) + (⌈(dur - (elapsed + sys.CONTROL_DT)) / sys.CONTROL_DT⌉).toNat := by
          omega
        rw [e1]
        simpa using a2
      · rw [hsucc, Function.iterate_succ_apply]
        exact a3
  | case3 elapsed h steps counter logs hlt hassert =>
      intro res hcnt hres
      have hassert2 : ops.assert (ops.update h.shim h.state).1
          (sys.sim_time h.state (ops.update h.shim h.state).2 sys.CONTROL_DT) = false := by
        simpa using hassert
      rw [runTimeAux_step_abort sys ops dur elapsed h steps counter logs hlt hassert2] at hres
      exact absurd hres (by simp)
  | case4 elapsed h steps counter logs hge =>
      intro res hcnt hres
      rw [runTimeAux_stop sys ops dur elapsed h steps counter logs hge] at hres
      have hres2 : (⟨h, steps, logs⟩ : RunResult Shim State Log) = res := by
        simpa using hres
      subst hres2
      rw [ceil_steps_zero sys.CONTROL_DT dur elapsed sys.dt_pos hge]
      refine ⟨by simp, ?_, by simp⟩
      simp [Nat.div_eq_of_lt hcnt]

end HarnessLemmas

lemma runIterates_cons (c : ElevatorPIDLoop) (p : ℚ × Bool) (ps : List (ℚ × Bool)) :
    runIterates c (p :: ps) = runIterates ((iterate c p.1 p.2).1) ps := rfl

lemma runIterates_state_mono (c : ElevatorPIDLoop) (inputs : List (ℚ × Bool)) :
    c.state.idx ≤ (runIterates c inputs).state.idx := by
  induction inputs generalizing c with
  | nil => exact Nat.le_refl _
  | cons p ps ih =>
      rw [runIterates_cons]
      exact Nat.le_trans (iterate_state_mono c p.1 p.2) (ih _)

/-- C1: the claim is right and `src/src/lib.rs` is wrong. The example variant
of `ElevatorShim::assert` succeeds exactly when the position is within
`[MIN_HEIGHT, MAX_HEIGHT]` (first conjunct), position `0` is within those
bounds (second and third conjuncts), yet the `src/src/lib.rs` variant — which
compares both bounds with `<=` — aborts at position `0` (last conjunct). -/
theorem c1_assert_in_bounds :
    (∀ pos : ℚ,
      elevatorShimAssertExample pos = true ↔ MIN_HEIGHT ≤ pos ∧ pos ≤ MAX_HEIGHT) ∧
    MIN_HEIGHT ≤ (0:ℚ) ∧ (0:ℚ) ≤ MAX_HEIGHT ∧
    elevatorShimAssertSrc 0 = false := by
  refine ⟨?_, by norm_num [MIN_HEIGHT], by norm_num [MAX_HEIGHT], ?_⟩
  · intro pos
    simp [elevatorShimAssertExample, ge_iff_le, and_comm]
  · norm_num [elevatorShimAssertSrc, MIN_HEIGHT, MAX_HEIGHT]

/-- C2: for every controller state and all inputs, `iterate` returns a control
output within the fixed symmetric voltage range `[-12, +12]` (all values are
exact rationals, hence finite). -/
theorem c2_iterate_output_in_voltage_range :
    ∀ (c : ElevatorPIDLoop) (e : ℚ) (l : Bool),
      -12 ≤ (iterate c e l).2 ∧ (iterate c e l).2 ≤ 12 := by
  intro c e l
  rcases hst : c.state with _ | _ | _
  · rw [iterate_eq_unitialized c hst e l]
    exact iterate_bounded_of_zeroing _ rfl _ _
  · exact iterate_bounded_of_zeroing c hst e l
  · rw [iterate_eq_running c hst]
    exact pidTail_snd_mem _ _ _

/-- C3: along any sequence of `iterate` calls the controller state only moves
forward along `Unitialized → Zeroing → Running` (its progress index never
decreases), and no other operation (`set_goal`) changes the state at all. -/
theorem c3_state_never_regresses :
    (∀ (c : ElevatorPIDLoop) (inputs : List (ℚ × Bool)),
      c.state.idx ≤ (runIterates c inputs).state.idx) ∧
    (∀ (c : ElevatorPIDLoop) (q : ℚ), (set_goal c q).state = c.state) := by
  exact ⟨runIterates_state_mono, fun c q => rfl⟩

/-- C4: in the `Zeroing` state with the limit switch inactive, one `iterate`
call decreases `zero_goal` by exactly `ZEROING_SPEED * DT` (hence strictly),
uses the decremented `zero_goal` as the filtered goal fed to the PD tail, and
stays in `Zeroing` (so the creep continues until a call observes the limit
switch active). -/
theorem c4_zeroing_creep (c : ElevatorPIDLoop) (e : ℚ) (h : c.state = .Zeroing) :
    (iterate c e false).1.zero_goal = c.zero_goal - ZEROING_SPEED * DT ∧
    (iterate c e false).1.zero_goal < c.zero_goal ∧
    iterate c e false = pidTail { c with zero_goal := c.zero_goal - ZEROING_SPEED * DT }
      (c.zero_goal - ZEROING_SPEED * DT) e ∧
    (iterate c e false).1.state = .Zeroing := by
  rw [iterate_eq_zeroing_nolimit c h e]
  refine ⟨rfl, ?_, rfl, ?_⟩
  · show c.zero_goal - ZEROING_SPEED * DT < c.zero_goal
    norm_num [ZEROING_SPEED, DT]
  · rw [pidTail_fst_state]
    exact h

/-- Witness for C4 at a concrete controller in `Zeroing` with `zero_goal = 1`. -/
theorem c4_zeroing_creep_witness :
    (iterate ⟨.Zeroing, 0, 0, 0, 1⟩ 0 false).1.zero_goal = 1 - ZEROING_SPEED * DT ∧
    (iterate ⟨.Zeroing, 0, 0, 0, 1⟩ 0 false).1.zero_goal < 1 ∧
    (iterate ⟨.Zeroing, 0, 0, 0, 1⟩ 0 false).1.state = .Zeroing := by
  have h := c4_zeroing_creep ⟨.Zeroing, 0, 0, 0, 1⟩ 0 rfl
  exact ⟨h.1, h.2.1, h.2.2.2⟩

/-- C5 counterexample: in `Zeroing` with setpoint 1, an `iterate` call with
the limit switch active and sensor reading 1 — equal to the held setpoint —
transitions to `Running` but computes output 12, not 0 (the captured
`zero_offset` makes the zeroed reading 0, so the error is the clamped
setpoint 1 and the PD term saturates the clamp). -/
theorem c5_counterexample :
    (⟨.Zeroing, 1, 0, 0, 1⟩ : ElevatorPIDLoop).state = .Zeroing ∧
    (⟨.Zeroing, 1, 0, 0, 1⟩ : ElevatorPIDLoop).sp = 1 ∧
    (iterate ⟨.Zeroing, 1, 0, 0, 1⟩ 1 true).1.state = .Running ∧
    (iterate ⟨.Zeroing, 1, 0, 0, 1⟩ 1 true).2 = 12 := by
  refine ⟨rfl, rfl, ?_, ?_⟩ <;>
    norm_num [iterate, pidTail, clamp, MIN_HEIGHT, MAX_HEIGHT, KP, KD, DT]

/-- C5 (amended): a `Zeroing` `iterate` call observing the limit switch
re-dispatches as the controller with state `Running`, `zero_offset` set to the
sensor reading and `last_err` reset to 0; the call ends in `Running` with
`zero_offset` equal to that reading, and if the setpoint clamped to the travel
bounds equals the zeroed sensor reading (which is 0 at this transition, i.e.
if `clamp sp MIN_HEIGHT MAX_HEIGHT = 0`) the computed output is 0. -/
theorem c5_zeroing_to_running (c : ElevatorPIDLoop) (e : ℚ) (h : c.state = .Zeroing) :
    iterate c e true
      = iterate { c with state := .Running, zero_offset := e, last_err := 0 } e true ∧
    (iterate c e true).1.state = .Running ∧
    (iterate c e true).1.zero_offset = e ∧
    (clamp c.sp MIN_HEIGHT MAX_HEIGHT = 0 → (iterate c e true).2 = 0) := by
  refine ⟨iterate_eq_zeroing_limit c h e, ?_, ?_, ?_⟩
  · rw [iterate_eq_zeroing_limit c h e, iterate_eq_running _ rfl, pidTail_fst_state]
  · rw [iterate_eq_zeroing_limit c h e, iterate_eq_running _ rfl]
    rfl
  · intro hc
    rw [iterate_eq_zeroing_limit c h e, iterate_eq_running _ rfl]
    show clamp ((clamp c.sp MIN_HEIGHT MAX_HEIGHT - (e - e)) * KP +
      ((clamp c.sp MIN_HEIGHT MAX_HEIGHT - (e - e) - 0) / DT) * KD) (-12) 12 = 0
    rw [hc]
    norm_num [clamp]

/-- Witness for C5 (amended) at a concrete `Zeroing` controller with
setpoint 0 and sensor reading 5. -/
theorem c5_zeroing_to_running_witness :
    (iterate ⟨.Zeroing, 0, 3, 7, 1⟩ 5 true).1.state = .Running ∧
    (iterate ⟨.Zeroing, 0, 3, 7, 1⟩ 5 true).1.zero_offset = 5 ∧
    (iterate ⟨.Zeroing, 0, 3, 7, 1⟩ 5 true).2 = 0 := by
  have h := c5_zeroing_to_running ⟨.Zeroing, 0, 3, 7, 1⟩ 5 rfl
  exact ⟨h.2.1, h.2.2.1, h.2.2.2 (by norm_num [clamp, MIN_HEIGHT, MAX_HEIGHT])⟩

/-- C6: with `lo < hi`, `clamp` returns a value in `[lo, hi]` — `lo` below,
`hi` above, the input itself in between — and its debug-build form succeeds;
invoked with `lo ≥ hi` the debug-build form signals the precondition failure
(`debug_assert!(lower < upper)`), rendered as `none`. -/
theorem c6_clamp_spec (v lo hi : ℚ) (h : lo < hi) :
    (lo ≤ clamp v lo hi ∧ clamp v lo hi ≤ hi) ∧
    (v < lo → clamp v lo hi = lo) ∧
    (hi < v → clamp v lo hi = hi) ∧
    (lo ≤ v → v ≤ hi → clamp v lo hi = v) ∧
    clampChecked v lo hi = some (clamp v lo hi) ∧
    (∀ lo2 hi2 : ℚ, hi2 ≤ lo2 → clampChecked v lo2 hi2 = none) := by
  refine ⟨clamp_mem v lo hi h.le, ?_, ?_, ?_, ?_, ?_⟩
  · intro hv
    simp [clamp, hv]
  · intro hv
    unfold clamp
    split_ifs <;> linarith
  · intro h1 h2
    unfold clamp
    split_ifs <;> linarith
  · simp [clampChecked, clamp, h]
  · intro lo2 hi2 hle
    simp [clampChecked, not_lt.mpr hle]

/-- Witness for C6 at `v = 5`, `lo = 0`, `hi = 1`. -/
theorem c6_clamp_spec_witness :
    ((0:ℚ) ≤ clamp 5 0 1 ∧ clamp 5 0 1 ≤ 1) ∧
    clamp 5 0 1 = 1 ∧ clampChecked 5 0 1 = some (clamp 5 0 1) ∧
    clampChecked 5 1 0 = none := by
  have h := c6_clamp_spec 5 0 1 (by norm_num)
  exact ⟨h.1, h.2.2.1 (by norm_num), h.2.2.2.2.1, h.2.2.2.2.2 1 0 (by norm_num)⟩

/-- C9: every `iterate` call terminates (the model is total by well-founded
recursion on the state's remaining progress), and the internal re-dispatch
nests at most two recursive calls: the number of re-dispatches plus the
state's progress index never exceeds 2, because each re-dispatch strictly
advances the three-valued state. -/
theorem c9_iterate_redispatch_bound :
    ∀ (c : ElevatorPIDLoop) (e : ℚ) (l : Bool),
      dispatchCount c e l ≤ 2 ∧ dispatchCount c e l + c.state.idx ≤ 2 := by
  intro c e l
  rcases hst : c.state with _ | _ | _
  · rw [dispatchCount_eq_unitialized c hst e l]
    cases l
    · rw [dispatchCount_eq_zeroing_nolimit _ rfl]
      simp [hst, LoopState.idx]
    · rw [dispatchCount_eq_zeroing_limit _ rfl, dispatchCount_eq_running _ rfl]
      simp [hst, LoopState.idx]
  · cases l
    · rw [dispatchCount_eq_zeroing_nolimit c hst]
      simp [hst, LoopState.idx]
    · rw [dispatchCount_eq_zeroing_limit c hst, dispatchCount_eq_running _ rfl]
      simp [hst, LoopState.idx]
  · rw [dispatchCount_eq_running c hst]
    simp [hst, LoopState.idx]

/-- C7: when `run_time(duration)` completes (no invariant abort), it performs
exactly `⌈duration / CONTROL_DT⌉` control steps (clamped at 0 for negative
durations, and overshooting `duration` rather than landing on it), produces
exactly `⌊steps / log_every⌋` log records, and returns the plant (and shim)
state reached by applying the control step that many times to the initial
state. -/
theorem c7_run_time_steps_and_logs {Shim State Response Log : Type}
    (sys : SysOps State Response) (ops : ShimOps Shim State Response Log)
    (h : SimulationHarness Shim State) (dur : ℚ) (res : RunResult Shim State Log)
    (hle : 0 < h.log_every) (hres : run_time sys ops h dur = some res) :
    res.steps = (⌈dur / sys.CONTROL_DT⌉).toNat ∧
    res.logs.length = res.steps / h.log_every ∧
    (res.harness.shim, res.harness.state)
      = (controlStep sys ops)^[res.steps] (h.shim, h.state) := by
  have hc := runTimeAux_count sys ops dur 0 h 0 0 [] res hle hres
  rw [sub_zero] at hc
  obtain ⟨h1, h2, h3⟩ := hc
  rw [zero_add] at h1
  refine ⟨h1, ?_, ?_⟩
  · rw [h2, h1]
    simp
  · rw [h1]
    exact h3

/-- Witness for C7: a concrete completed run of one step with
`log_every = 1` over the trivial system. -/
theorem c7_run_time_steps_and_logs_witness :
    (⟨⟨(), 0, 1, 1⟩, 1, [1]⟩ : RunResult Unit ℚ ℚ).steps
      = (⌈(1:ℚ) / witSys.CONTROL_DT⌉).toNat ∧
    (⟨⟨(), 0, 1, 1⟩, 1, [1]⟩ : RunResult Unit ℚ ℚ).logs.length
      = (⟨⟨(), 0, 1, 1⟩, 1, [1]⟩ : RunResult Unit ℚ ℚ).steps / witHarness.log_every := by
  have hrun : run_time witSys witOps witHarness 1 = some ⟨⟨(), 0, 1, 1⟩, 1, [1]⟩ := by
    simp [run_time, runTimeAux, witSys, witOps, witHarness]
  have h := c7_run_time_steps_and_logs witSys witOps witHarness 1 ⟨⟨(), 0, 1, 1⟩, 1, [1]⟩
    Nat.one_pos hrun
  exact ⟨h.1, h.2.1⟩

/-- C8: the plant dynamics at zero voltage and zero velocity yield zero
acceleration, so `sim_time` with applied output 0 on a state with velocity 0
returns the state unchanged, and so does any number of repeated calls. -/
theorem c8_zero_input_invariance (s : ElevatorPhysicsState) (dur : ℚ) (h : s.vel = 0) :
    acc 0 0 = 0 ∧ sim_time s 0 dur = s ∧
    ∀ n : ℕ, (fun t => sim_time t 0 dur)^[n] s = s := by
  have h1 : sim_time s 0 dur = s := sim_time_zero_vel s dur h
  refine ⟨acc_zero_zero, h1, ?_⟩
  intro n
  induction n with
  | zero => rfl
  | succ k ih => rw [Function.iterate_succ_apply, h1, ih]

/-- Witness for C8 at position 2, velocity 0, over one control period and
five repeated calls. -/
theorem c8_zero_input_invariance_witness :
    acc 0 0 = 0 ∧ sim_time ⟨2, 0⟩ 0 (1/200) = ⟨2, 0⟩ ∧
    (fun t => sim_time t 0 (1/200))^[5] ⟨2, 0⟩ = ⟨2, 0⟩ := by
  have h := c8_zero_input_invariance ⟨2, 0⟩ (1/200) rfl
  exact ⟨h.1, h.2.1, h.2.2 5⟩

/-- C10: for a non-positive duration, `run_time` performs zero control steps:
the `while elapsed < time` guard fails immediately, so the shim is never
invoked, no log record is produced, and the harness — its shim, plant state
and elapsed time — is returned unchanged. -/
theorem c10_run_time_nonpositive {Shim State Response Log : Type}
    (sys : SysOps State Response) (ops : ShimOps Shim State Response Log)
    (h : SimulationHarness Shim State) (dur : ℚ) (hdur : dur ≤ 0) :
    run_time sys ops h dur = (some ⟨h, 0, []⟩ : Option (RunResult Shim State Log)) := by
  unfold run_time
  exact runTimeAux_stop sys ops dur 0 h 0 0 [] (not_lt.mpr (by linarith))

/-- Witness for C10 at duration `-1` over the trivial system. -/
theorem c10_run_time_nonpositive_witness :
    run_time witSys witOps witHarness (-1)
      = (some ⟨witHarness, 0, []⟩ : Option (RunResult Unit ℚ ℚ)) :=
  c10_run_time_nonpositive witSys witOps witHarness (-1) (by norm_num)

end ControlSim
